import Mathlib

/-!
Verification of the mssql-cr-layer parameter-binding, type-inference,
transaction and connection-registry logic, shallowly embedded from
`src/index.js` (current variant in `src/unnamed/part_004`).

JavaScript strings are modelled as `List Char`.  A JavaScript number is
represented by the character list of its string rendering `('' + value)`,
which is the only attribute of a number the type-inference code inspects.
A JavaScript `Date` instance is represented by the character list of its
`toISOString()` rendering.
-/

set_option autoImplicit false

deriving instance DecidableEq for Except

namespace MssqlCr

/-- Numeric value of a list of decimal digit characters, most significant
first, as computed by repeated multiply-and-add. -/
def natOfDigits (l : List Char) : Nat :=
  l.foldl (fun acc c => acc * 10 + (c.toNat - '0'.toNat)) 0

/-- Model of a JavaScript value as far as the layer inspects one: the
`object` constructor carries the descriptor fields `value`, `type`,
`maxLength`, `decimals` and `timezone` read by the binding loop; an absent
or explicitly-undefined `value` property is represented by `undefined`, which
is indistinguishable from absence in the source (only `param.value !== void 0`
is ever tested). -/
inductive JsValue : Type where
  | undefined : JsValue
  | null : JsValue
  | boolean : Bool → JsValue
  | number : List Char → JsValue
  | str : List Char → JsValue
  | date : List Char → JsValue
  | object : JsValue → Option String → Option Nat → Option Nat → Option String → JsValue
deriving DecidableEq

/-- Driver-level column types constructed by `getType`: the constructors of
the `mssql` module used by the source (`NVarChar`, `NVarChar(n)`, `Int`,
`Decimal(p, s)`, `Date`, `DateTime2`, `DateTimeOffset`). -/
inductive SqlType : Type where
  | nvarcharDefault : SqlType
  | nvarchar : Nat → SqlType
  | int : SqlType
  | decimal : Option Nat → Option Nat → SqlType
  | sqlDate : SqlType
  | dateTime2 : SqlType
  | dateTimeOffset : SqlType
deriving DecidableEq

/-- Parse of the tail of the regular expression
`(?:[eE]([+-]?\x7bdigits\x7d))$` used by `decimalPlaces`: from the current
position, an `e` or `E`, an optional sign and a nonempty digit run must
reach the end of the string; the result is the signed exponent value. -/
def matchExpTail (s : List Char) : Option Int :=
  match s with
  | [] => none
  | c :: rest =>
    if c = 'e' ∨ c = 'E' then
      match rest with
      | '+' :: r2 =>
        if r2 ≠ [] ∧ r2.all Char.isDigit then some (natOfDigits r2 : Int) else none
      | '-' :: r2 =>
        if r2 ≠ [] ∧ r2.all Char.isDigit then some (-(natOfDigits r2 : Int)) else none
      | r2 =>
        if r2 ≠ [] ∧ r2.all Char.isDigit then some (natOfDigits r2 : Int) else none
    else none

/-- One attempt of the `decimalPlaces` regular expression at the current
position: either a dot followed by a nonempty digit run and an optional
exponent part reaching the end, or an exponent part reaching the end, or
the empty match at the end of the string.  Returns the fraction length and
the exponent. -/
def matchAt (s : List Char) : Option (Nat × Int) :=
  match s with
  | [] => some (0, 0)
  | c :: rest =>
    if c = '.' then
      let d := rest.takeWhile Char.isDigit
      let r := rest.dropWhile Char.isDigit
      if d = [] then none
      else if r = [] then some (d.length, 0)
      else
        match matchExpTail r with
        | some e => some (d.length, e)
        | none => none
    else
      match matchExpTail (c :: rest) with
      | some e => some (0, e)
      | none => none

/-- Leftmost match of the `decimalPlaces` regular expression: positions are
tried left to right and the first one admitting a match wins, mirroring the
behaviour of `String.prototype.match` without the global flag. -/
def scanDp (s : List Char) : Nat × Int :=
  match s with
  | [] => (0, 0)
  | c :: rest =>
    match matchAt (c :: rest) with
    | some fe => fe
    | none => scanDp rest

/-- Embedding of `decimalPlaces(num)` from the source: the number of digits
right of the decimal point in the rendering of `num`, adjusted for
scientific notation and floored at zero via `Math.max(0, ...)`. -/
def decimalPlaces (s : List Char) : Nat :=
  (max 0 ((scanDp s).1 - (scanDp s).2 : Int)).toNat

/-- Value-based branch of `getType`: with no usable descriptor, a `Date`
instance infers `DateTime2` and a number infers
`Decimal(('' + value).length, decimalPlaces(value))`; everything else keeps
the default `NVarChar`. -/
def inferFromValue (value : JsValue) : SqlType :=
  match value with
  | .date _ => .dateTime2
  | .number s => .decimal (some s.length) (some (decimalPlaces s))
  | _ => .nvarcharDefault

/-- JavaScript truthiness of the `maxLength` descriptor field as used by
`if (param.maxLength)`: present and nonzero. -/
def mlTruthy : Option Nat → Bool
  | some n => n != 0
  | none => false

/-- Embedding of `getType(value, param)` from the source.  The guard
`param && param.type` selects the descriptor switch only when `param` is a
truthy object with a truthy `type`; otherwise the type is inferred from the
value.  The switch cases mirror the source in order. -/
def getType (value : JsValue) (param : JsValue) : SqlType :=
  match param with
  | .object _ (some t) ml dec tz =>
    if t = "" then inferFromValue value
    else if t = "integer" then .int
    else if t = "number" then .decimal ml dec
    else if t = "date" then .sqlDate
    else if t = "datetime" then
      (if tz = some "ignore" then .dateTime2 else .dateTimeOffset)
    else if t = "string" then
      (if mlTruthy ml then .nvarchar (ml.getD 0) else .nvarcharDefault)
    else .nvarcharDefault
  | _ => inferFromValue value

/-- Word characters of the JavaScript regular expression class `\w`:
ASCII letters, digits and underscore. -/
def isWordChar (c : Char) : Bool := c.isAlphanum || c = '_'

/-- Worker of the statement scanner, structurally recursive on a fuel
that starts at the statement length; each step consumes at least one
character while the fuel drops by exactly one, so the fuel never runs out
before the statement does. -/
def scanTokensFuel : Nat → List Char → List (List Char)
  | 0, _ => []
  | _ + 1, [] => []
  | fuel + 1, c :: rest =>
    if c = '$' then
      let w := rest.takeWhile isWordChar
      if w = [] then scanTokensFuel fuel rest
      else ('$' :: w) :: scanTokensFuel fuel (rest.dropWhile isWordChar)
    else scanTokensFuel fuel rest

/-- Global matches of the positional-placeholder regular expression
`(\$\w*\b)` over the statement: a dollar sign followed by a maximal
nonempty run of word characters (a dollar followed by no word character
fails the trailing word-boundary assertion and is skipped). -/
def scanTokens (s : List Char) : List (List Char) :=
  scanTokensFuel s.length s

/-- Number of distinct token strings in a list of matches. -/
def countDistinct (l : List (List Char)) : Nat :=
  match l with
  | [] => 0
  | t :: rest => (if rest.contains t then 0 else 1) + countDistinct rest

/-- Model of `Number(key)` restricted to the decimal-digit keys a
positional placeholder carries; any other run of word characters coerces
to a value that indexes nothing in the parameter array. -/
def jsNumberIndex (key : List Char) : Option Nat :=
  if key ≠ [] ∧ key.all Char.isDigit then some (natOfDigits key) else none

/-- Array lookup `params[Number(key) - 1]` from `convertParams`: a
nonpositive or out-of-range index yields `undefined`. -/
def paramLookup (ps : List JsValue) (key : List Char) : JsValue :=
  match jsNumberIndex key with
  | some n => if 1 ≤ n then ps.getD (n - 1) .undefined else .undefined
  | none => .undefined

/-- Does the second list occur at the head of the first? -/
def headMatches (s pat : List Char) : Bool :=
  match s, pat with
  | _, [] => true
  | [], _ :: _ => false
  | a :: as, b :: bs => a == b && headMatches as bs

/-- `String.prototype.replace` with a string pattern: only the first
occurrence of the pattern is replaced. -/
def replaceFirst (s pat repl : List Char) : List Char :=
  match s with
  | [] => []
  | c :: rest =>
    if headMatches (c :: rest) pat then repl ++ (c :: rest).drop pat.length
    else c :: replaceFirst rest pat repl

/-- Object property assignment on an association list: an existing key is
overwritten in place, a new key is appended, preserving insertion order
like a JavaScript object literal. -/
def setAssoc (k : List Char) (v : JsValue) (l : List (List Char × JsValue)) :
    List (List Char × JsValue) :=
  match l with
  | [] => [(k, v)]
  | (k2, v2) :: rest => if k2 = k then (k, v) :: rest else (k2, v2) :: setAssoc k v rest

/-- Embedding of `convertParams` for an array of parameters: collect all
matches of `(\$\w*\b)`, assert that their count does not exceed the number
of array elements, then for each match build the entry `p<key>` bound to
`params[Number(key) - 1]` and rewrite the first remaining occurrence of the
token to `@p<key>` in the statement. -/
def convertParams (statement : List Char) (ps : List JsValue) :
    Except String (List Char × List (List Char × JsValue)) :=
  let ms := scanTokens statement
  if ms.length ≤ ps.length then
    .ok (ms.foldl
      (fun acc m =>
        (replaceFirst acc.1 m ('@' :: 'p' :: m.drop 1),
         setAssoc ('p' :: m.drop 1) (paramLookup ps (m.drop 1)) acc.2))
      (statement, []))
  else .error "There are more parameters in statement than in object params"

/-- Is a computation of the binding layer successful? -/
def exceptOk {ε α : Type} : Except ε α → Bool
  | .ok _ => true
  | .error _ => false

/-- Is this value a `Date` instance? -/
def isDateValue : JsValue → Bool
  | .date _ => true
  | _ => false

/-- The sub-second precision fix applied to a raw `Date` parameter:
`toISOString().substring(0, 23) + '000'`. -/
def isoTrunc (iso : List Char) : List Char := iso.take 23 ++ ['0', '0', '0']

/-- Model of the host `new Date(input)` call used to coerce a string or
number into a date when the descriptor declares a `date`/`datetime` type:
the layer only ever depends on the result being a `Date` instance, so the
payload records the source value's text. -/
def jsNewDate (v : JsValue) : JsValue :=
  .date (match v with
    | .str s => s
    | .number s => s
    | _ => [])

/-- Embedding of the per-parameter body of the binding loop in `query`:
resolves the bound value `input[key]` and the driver type passed to
`ps.input`.  A `null` or plain-object parameter takes the descriptor
branch (in JavaScript `typeof null` is the string `object`); any other
value takes the scalar branch, where `undefined` becomes `null` and a raw
`Date` is rendered to its precision-fixed ISO string. -/
def bindParam (param : JsValue) : JsValue × SqlType :=
  match param with
  | .null => (JsValue.null, getType .null param)
  | .object v ptype _ _ _ =>
    let input0 := if v ≠ JsValue.undefined then v else JsValue.null
    let input :=
      if input0 ≠ JsValue.null ∧ (ptype = some "date" ∨ ptype = some "datetime") ∧
          isDateValue input0 = false
      then jsNewDate input0 else input0
    (input, getType input param)
  | _ =>
    let input0 := if param = JsValue.undefined then JsValue.null else param
    let input :=
      match input0 with
      | .date iso => JsValue.str (isoTrunc iso)
      | _ => input0
    (input, getType input JsValue.undefined)

/-- A raw result-row cell as delivered by the driver: a single column value
or, for a duplicate column name in the statement, an ordered sequence of
the column's values.  The driver's duplicate-column sequences contain
scalar column values, never nested sequences. -/
inductive Cell : Type where
  | val : JsValue → Cell
  | arr : List JsValue → Cell
deriving DecidableEq

/-- JavaScript strict equality between two driver column values, as used by
`el === first` inside `fold`: `NaN` is not equal to itself, and two `Date`
objects delivered by the driver are distinct references, hence never
strictly equal. -/
def jsStrictEq : JsValue → JsValue → Bool
  | .undefined, .undefined => true
  | .null, .null => true
  | .boolean a, .boolean b => a == b
  | .number a, .number b =>
    if a = ['N', 'a', 'N'] ∨ b = ['N', 'a', 'N'] then false else a == b
  | .str a, .str b => a == b
  | _, _ => false

/-- Embedding of the per-column body of `fold`: a cell holding an array of
more than one element collapses to its first element when every element is
strictly equal to the first, and is left untouched otherwise. -/
def foldCell (c : Cell) : Cell :=
  match c with
  | .val _ => c
  | .arr vs =>
    if vs.length > 1 then
      match vs with
      | [] => c
      | first :: _ => if vs.all (fun el => jsStrictEq el first) then .val first else c
    else c

/-- A normalized result row: column names to cells, in key order. -/
abbrev Row : Type := List (String × Cell)

/-- Embedding of `fold(record)`: the per-column collapse applied to every
column of the row. -/
def foldRow (r : Row) : Row := r.map (fun kv => (kv.1, foldCell kv.2))

/-- Outcomes of the driver calls issued by the scoped `transaction`
helper, together with the value of the closure flag `rolledBack` at the
moment the `catch` handler runs (the flag is set by the driver's
`rollback` event, which can fire autonomously).  `none` means the call
resolved; `some e` means it rejected with error `e`. -/
structure ScopedTxEnv (R : Type) : Type where
  beginR : Option String
  fnR : Except String R
  rolledBackAtCatch : Bool
  commitR : Option String
  rollbackR : Option String

/-- The `catch` handler of the scoped `transaction` helper: when the flag
shows no rollback has occurred, `transaction.rollback()` is issued and the
original error is re-thrown only after it resolves — a rejection of the
rollback call itself propagates instead; when the flag is set, the
original error is re-thrown directly.  The second component counts the
rollback commands issued. -/
def scopedCatch {R : Type} (env : ScopedTxEnv R) (err : String) :
    Except String R × Nat :=
  if env.rolledBackAtCatch then (.error err, 0)
  else
    match env.rollbackR with
    | none => (.error err, 1)
    | some e2 => (.error e2, 1)

/-- Embedding of the promise chain of the scoped `transaction(fn, options)`
helper: begin, run the work, commit, with every rejection routed to the
`catch` handler. -/
def transactionRun {R : Type} (env : ScopedTxEnv R) : Except String R × Nat :=
  match env.beginR with
  | some e => scopedCatch env e
  | none =>
    match env.fnR with
    | .error e => scopedCatch env e
    | .ok r =>
      match env.commitR with
      | none => (.ok r, 0)
      | some e => scopedCatch env e

/-- A step-by-step transaction handle: the `rolledBack` flag stored in the
module-level weak map, keyed by the driver transaction object. -/
structure TxHandle : Type where
  rolledBack : Bool
deriving DecidableEq

/-- Handle state installed by `beginTransaction`: the flag starts false. -/
def newTxHandle : TxHandle := ⟨false⟩

/-- Effect of the driver's `rollback` event subscription installed by
`beginTransaction`: the flag becomes true. -/
def onRollbackEvent (h : TxHandle) : TxHandle := { h with rolledBack := true }

/-- Embedding of `rollback(transaction)` in step-by-step mode: when the
flag is set the call resolves immediately issuing nothing, otherwise
exactly one explicit `transaction.rollback()` is issued and its outcome is
returned.  The second component counts the rollback commands issued. -/
def rollbackStep (h : TxHandle) (driverR : Option String) : Option String × Nat :=
  if h.rolledBack then (none, 0) else (driverR, 1)

/-- Outcomes of the prepare, execute and unprepare driver calls of a
parameterized `query`/`execute`.  A resolved execute carries the optional
recordset. -/
structure PreparedEnv : Type where
  prepareR : Option String
  executeR : Except String (Option (List Row))
  unprepareR : Option String

/-- Embedding of the prepare/execute/unprepare promise chain of `query`:
after a successful prepare, `unprepare` is invoked on both the success and
the failure path of execute; the original execution error is re-thrown
after the unprepare resolves, while a rejection of the unprepare call
itself propagates in its place.  The second component records whether
`unprepare` was invoked. -/
def runPrepared (env : PreparedEnv) : Except String (List Row) × Bool :=
  match env.prepareR with
  | some e => (.error e, false)
  | none =>
    match env.executeR with
    | .ok rs =>
      (match env.unprepareR with
       | none => (.ok ((rs.getD []).map foldRow), true)
       | some e2 => (.error e2, true))
    | .error e =>
      (match env.unprepareR with
       | none => (.error e, true)
       | some e2 => (.error e2, true))

/-- The connection parameters of `connect` that take part in registry
keying and credential comparison, after `toMssqlConfig` normalization.
The port is kept as the string it is interpolated as. -/
structure MsConfig : Type where
  server : String
  port : String
  database : String
  user : String
  password : String
deriving DecidableEq

/-- The registry key, built exactly as the source template literal
concatenates server, port, database and user. -/
def connectionKey (c : MsConfig) : String :=
  c.server ++ c.port ++ c.database ++ c.user

/-- A registry entry: the config snapshot it was created with (only the
password is ever compared) and the identity of the live connection pool
object. -/
structure ConnEntry : Type where
  password : String
  connId : Nat
deriving DecidableEq

/-- Lookup in the registry map. -/
def lookupEntry (k : String) : List (String × ConnEntry) → Option ConnEntry
  | [] => none
  | (k2, e) :: rest => if k2 = k then some e else lookupEntry k rest

/-- `Map.prototype.set`: overwrite an existing key in place, append a new
one. -/
def setEntry (k : String) (e : ConnEntry) :
    List (String × ConnEntry) → List (String × ConnEntry)
  | [] => [(k, e)]
  | (k2, e2) :: rest =>
    if k2 = k then (k, e) :: rest else (k2, e2) :: setEntry k e rest

/-- State of a layer instance's connection registry: the keyed map, a
supply of fresh connection identities (each `new mssql.ConnectionPool`
consumes one), and the identities whose `close()` has been called. -/
structure ConnState : Type where
  connections : List (String × ConnEntry)
  nextId : Nat
  closed : List Nat
deriving DecidableEq

/-- The tail of `connect` that constructs a fresh pool and connects it:
on success the new entry is registered under the key and the new
connection is returned; on failure nothing is registered and the connect
rejection propagates. -/
def connectNew (st : ConnState) (key : String) (c : MsConfig) (connectOk : Bool) :
    ConnState × Except Unit Nat :=
  if connectOk then
    ({ st with
        nextId := st.nextId + 1,
        connections := setEntry key ⟨c.password, st.nextId⟩ st.connections },
     .ok st.nextId)
  else ({ st with nextId := st.nextId + 1 }, .error ())

/-- Embedding of `MssqlCrLayer.prototype.connect`: an existing entry under
the key is returned as-is when the stored password matches the requested
one; on a password mismatch the stale connection is closed and a fresh
pool is connected and registered; with no entry a fresh pool is connected
and registered. -/
def connect (st : ConnState) (c : MsConfig) (connectOk : Bool) :
    ConnState × Except Unit Nat :=
  let key := connectionKey c
  match lookupEntry key st.connections with
  | some e =>
    if c.password = e.password then (st, .ok e.connId)
    else connectNew { st with closed := st.closed ++ [e.connId] } key c connectOk
  | none => connectNew st key c connectOk

/-- The registry keys are pairwise distinct: the formal reading of "at
most one live entry per key". -/
def keysNodup (l : List (String × ConnEntry)) : Prop :=
  (l.map Prod.fst).Nodup

/-- Count of decimal digit characters in a string; the spec reading of
"digit count of the value's string form". -/
def digitCount (s : List Char) : Nat := (s.filter Char.isDigit).length

/-- The fractional part of a plain decimal rendering: empty when there are
no fraction digits, otherwise a dot followed by them. -/
def optFrac (F : List Char) : List Char := if F = [] then [] else '.' :: F

/-- A JavaScript number rendered in plain decimal notation: an optional
minus sign, the integer digits and the optional fractional part. -/
def renderPlain (neg : Bool) (I F : List Char) : List Char :=
  (if neg then ['-'] else []) ++ I ++ optFrac F

/-- A JavaScript number rendered in scientific notation: the plain part
followed by an explicitly signed exponent, as `toString` renders it. -/
def renderSci (neg : Bool) (I F : List Char) (eneg : Bool) (D : List Char) :
    List Char :=
  renderPlain neg I F ++ 'e' :: (if eneg then '-' else '+') :: D

/-- The signed exponent value of a scientific rendering. -/
def sciExp (eneg : Bool) (D : List Char) : Int :=
  if eneg then -(natOfDigits D : Int) else (natOfDigits D : Int)

/-- The outcomes under which the scoped `transaction` helper reaches its
`catch` handler with error `e`: the begin rejects, the work rejects after a
successful begin, or the commit rejects after successful work. -/
def failsWith {R : Type} (env : ScopedTxEnv R) (e : String) : Prop :=
  env.beginR = some e
  ∨ (env.beginR = none ∧ env.fnR = .error e)
  ∨ (env.beginR = none ∧ env.commitR = some e ∧ ∃ r, env.fnR = .ok r)

/-- The column collapse is a projection: reapplying it cannot change a
cell a first application produced. -/
theorem foldCell_foldCell (c : Cell) : foldCell (foldCell c) = foldCell c := by
  cases c with
  | val v => rfl
  | arr vs =>
    by_cases hlen : vs.length > 1
    · cases vs with
      | nil => simp at hlen
      | cons first rest =>
        have hne : rest ≠ [] := by
          intro hrest
          subst hrest
          simp at hlen
        by_cases hall : (first :: rest).all (fun el => jsStrictEq el first) = true
        · have h1 : foldCell (.arr (first :: rest)) = .val first := by
            simp [foldCell, hlen, hall, hne]
          rw [h1]
          rfl
        · have h1 : foldCell (.arr (first :: rest)) = .arr (first :: rest) := by
            simp [foldCell, hlen, hall]
          rw [h1, h1]
    · have h1 : foldCell (.arr vs) = .arr vs := by
        simp [foldCell, hlen]
      rw [h1, h1]

/-- C10: a parameter that is the JavaScript value `null` takes the
descriptor branch of the binding loop (in JavaScript `typeof null` is
the string `object`), binds SQL NULL as its input value, and gets the
default unbounded string driver type — never a numeric, date or datetime
type. -/
theorem C10_null_descriptor_branch :
    bindParam JsValue.null = (JsValue.null, SqlType.nvarcharDefault) := by
  decide

/-- C9: row folding is idempotent; a multi-element duplicate-column array
whose elements are not all strictly equal to the first is left as the
multi-valued array, while one whose elements are all strictly equal
collapses to that single value. -/
theorem C9_fold_idempotent_collapse :
    (∀ r : Row, foldRow (foldRow r) = foldRow r)
    ∧ (∀ (first : JsValue) (rest : List JsValue), (first :: rest).length > 1 →
        (first :: rest).all (fun el => jsStrictEq el first) = false →
        foldCell (.arr (first :: rest)) = .arr (first :: rest))
    ∧ (∀ (first : JsValue) (rest : List JsValue), (first :: rest).length > 1 →
        (first :: rest).all (fun el => jsStrictEq el first) = true →
        foldCell (.arr (first :: rest)) = .val first) := by
  refine ⟨?_, ?_, ?_⟩
  · intro r
    unfold foldRow
    rw [List.map_map]
    apply List.map_congr_left
    intro kv _
    simp [Function.comp, foldCell_foldCell]
  · intro first rest hlen hall
    have hne : rest ≠ [] := by
      intro hrest
      subst hrest
      simp at hlen
    simp [foldCell, hlen, hall, hne]
  · intro first rest hlen hall
    have hne : rest ≠ [] := by
      intro hrest
      subst hrest
      simp at hlen
    simp [foldCell, hlen, hall, hne]

/-- Closed instance of C9: a duplicated equal column collapses, a
differing one is kept, and refolding a folded row changes nothing. -/
theorem C9_witness :
    foldRow (foldRow [("a", Cell.arr [JsValue.number ['1'], JsValue.number ['2']])])
      = foldRow [("a", Cell.arr [JsValue.number ['1'], JsValue.number ['2']])]
    ∧ foldCell (.arr [JsValue.number ['1'], JsValue.number ['2']])
        = .arr [JsValue.number ['1'], JsValue.number ['2']]
    ∧ foldCell (.arr [JsValue.number ['1'], JsValue.number ['1']])
        = .val (JsValue.number ['1']) :=
  ⟨C9_fold_idempotent_collapse.1 _,
   C9_fold_idempotent_collapse.2.1 (JsValue.number ['1']) [JsValue.number ['2']]
     (by decide) (by decide),
   C9_fold_idempotent_collapse.2.2 (JsValue.number ['1']) [JsValue.number ['1']]
     (by decide) (by decide)⟩

/-- C6: in step-by-step mode the `rolledBack` flag starts false and the
driver's rollback event sets it true; `rollback(handle)` resolves without
issuing any rollback command when the flag is set, and issues exactly one
explicit rollback otherwise. -/
theorem C6_rollback_noop_when_flagged :
    newTxHandle.rolledBack = false
    ∧ (∀ h : TxHandle, (onRollbackEvent h).rolledBack = true)
    ∧ (∀ driverR : Option String, rollbackStep ⟨true⟩ driverR = (none, 0))
    ∧ (∀ (h : TxHandle) (driverR : Option String), h.rolledBack = false →
        rollbackStep h driverR = (driverR, 1)) := by
  refine ⟨rfl, fun h => rfl, fun driverR => rfl, ?_⟩
  intro h driverR hh
  cases h
  simp only [TxHandle.mk.injEq] at hh ⊢
  simp [rollbackStep, hh]

/-- Closed instance of C6: a flagged handle issues nothing even when the
driver rollback would fail, an unflagged handle issues one rollback. -/
theorem C6_witness :
    rollbackStep ⟨true⟩ (some "deadlock") = (none, 0)
    ∧ rollbackStep ⟨false⟩ none = (none, 1) :=
  ⟨C6_rollback_noop_when_flagged.2.2.1 (some "deadlock"),
   C6_rollback_noop_when_flagged.2.2.2 ⟨false⟩ none rfl⟩

/-- C5 fails as stated: with work rejecting and a rollback that itself
rejects, the caller sees the rollback failure, not the original work
failure — the rollback rejection is not swallowed. -/
theorem C5_counterexample :
    transactionRun (R := Nat)
      ⟨none, .error "work failed", false, none, some "rollback failed"⟩
      = (.error "rollback failed", 1)
    ∧ (Except.error "rollback failed" : Except String Nat) ≠ .error "work failed" := by
  decide

/-- C5 amended: when the scoped helper fails with `e`, a rollback is
issued unless the `rolledBack` flag is set; the original failure is
re-raised when the rollback is skipped or succeeds, but a failure of the
rollback itself is raised in its place. -/
theorem C5_amended {R : Type} (env : ScopedTxEnv R) (e : String)
    (h : failsWith env e) :
    ((transactionRun env).2 = if env.rolledBackAtCatch then 0 else 1)
    ∧ (env.rolledBackAtCatch = true → transactionRun env = (.error e, 0))
    ∧ (env.rolledBackAtCatch = false → env.rollbackR = none →
        transactionRun env = (.error e, 1))
    ∧ (∀ e2, env.rolledBackAtCatch = false → env.rollbackR = some e2 →
        transactionRun env = (.error e2, 1)) := by
  obtain ⟨b, f, rb, cm, rl⟩ := env
  have hrun : transactionRun ⟨b, f, rb, cm, rl⟩ = scopedCatch ⟨b, f, rb, cm, rl⟩ e := by
    rcases h with h1 | ⟨h1, h2⟩ | ⟨h1, h2, r, h3⟩
    · simp only at h1
      simp [transactionRun, h1]
    · simp only at h1 h2
      simp [transactionRun, h1, h2]
    · simp only at h1 h2 h3
      simp [transactionRun, h1, h2, h3]
  rw [hrun]
  refine ⟨?_, ?_, ?_, ?_⟩
  · cases rb <;> cases rl <;> simp [scopedCatch]
  · intro hrb
    simp only at hrb
    simp [scopedCatch, hrb]
  · intro hrb hrl
    simp only at hrb hrl
    simp [scopedCatch, hrb, hrl]
  · intro e2 hrb hrl
    simp only at hrb hrl
    simp [scopedCatch, hrb, hrl]

/-- Closed instance of the amended C5: a skipped rollback re-raises the
original error issuing nothing; a successful rollback re-raises the
original error after one rollback command. -/
theorem C5_witness :
    transactionRun (R := Nat) ⟨none, .error "boom", true, none, none⟩
      = (.error "boom", 0)
    ∧ transactionRun (R := Nat) ⟨none, .error "boom", false, none, none⟩
      = (.error "boom", 1) :=
  ⟨(C5_amended ⟨none, .error "boom", true, none, none⟩ "boom"
      (Or.inr (Or.inl ⟨rfl, rfl⟩))).2.1 rfl,
   (C5_amended ⟨none, .error "boom", false, none, none⟩ "boom"
      (Or.inr (Or.inl ⟨rfl, rfl⟩))).2.2.1 rfl rfl⟩

/-- C8 fails as stated: when the execute rejects and the following
unprepare also rejects, the unprepare failure is raised to the caller in
place of the original execution error. -/
theorem C8_counterexample :
    runPrepared ⟨none, .error "execute failed", some "unprepare failed"⟩
      = (.error "unprepare failed", true)
    ∧ (Except.error "unprepare failed" : Except String (List Row))
        ≠ .error "execute failed" := by
  decide

/-- C8 amended: after a successful prepare, `unprepare` is invoked on the
success path and on the failure path of execute; when the unprepare
resolves, the success path returns the folded rows and the failure path
re-raises the original execution error unchanged, while a rejection of
the unprepare itself is raised in its place. -/
theorem C8_amended (env : PreparedEnv) (h : env.prepareR = none) :
    ((runPrepared env).2 = true)
    ∧ (∀ rs, env.executeR = .ok rs → env.unprepareR = none →
        runPrepared env = (.ok ((rs.getD []).map foldRow), true))
    ∧ (∀ e, env.executeR = .error e → env.unprepareR = none →
        runPrepared env = (.error e, true))
    ∧ (∀ e e2, env.executeR = .error e → env.unprepareR = some e2 →
        runPrepared env = (.error e2, true)) := by
  obtain ⟨p, ex, un⟩ := env
  simp only at h
  subst h
  refine ⟨?_, ?_, ?_, ?_⟩
  · cases ex <;> cases un <;> simp [runPrepared]
  · intro rs hex hun
    simp only at hex hun
    simp [runPrepared, hex, hun]
  · intro e hex hun
    simp only at hex hun
    simp [runPrepared, hex, hun]
  · intro e e2 hex hun
    simp only at hex hun
    simp [runPrepared, hex, hun]

/-- Closed instance of the amended C8: with a resolving unprepare, a
failing execute re-raises its own error after the release, and a
succeeding execute returns the folded rows after the release. -/
theorem C8_witness :
    runPrepared ⟨none, .error "boom", none⟩ = (.error "boom", true)
    ∧ runPrepared ⟨none, .ok (some []), none⟩ = (.ok [], true) :=
  ⟨(C8_amended ⟨none, .error "boom", none⟩ rfl).2.2.1 "boom" rfl rfl,
   (C8_amended ⟨none, .ok (some []), none⟩ rfl).2.1 (some []) rfl rfl⟩

/-- A key present in the overwritten registry is the inserted one or one
already present. -/
theorem mem_keys_setEntry (k : String) (e : ConnEntry) (a : String) :
    ∀ l : List (String × ConnEntry),
      a ∈ (setEntry k e l).map Prod.fst → a = k ∨ a ∈ l.map Prod.fst := by
  intro l
  induction l with
  | nil => simp [setEntry]
  | cons kv rest ih =>
    obtain ⟨k2, e2⟩ := kv
    by_cases hk : k2 = k
    · subst hk
      intro h
      have hset : setEntry k2 e ((k2, e2) :: rest) = (k2, e) :: rest := by
        simp [setEntry]
      rw [hset] at h
      simp only [List.map_cons, List.mem_cons] at h
      tauto
    · simp only [setEntry, if_neg hk, List.map_cons, List.mem_cons]
      intro h
      rcases h with h | h
      · tauto
      · rcases ih h with h2 | h2 <;> tauto

/-- Overwriting one key keeps the registry keys pairwise distinct. -/
theorem keysNodup_setEntry (k : String) (e : ConnEntry) :
    ∀ l : List (String × ConnEntry), keysNodup l → keysNodup (setEntry k e l) := by
  intro l
  induction l with
  | nil => simp [setEntry, keysNodup]
  | cons kv rest ih =>
    obtain ⟨k2, e2⟩ := kv
    intro h
    simp only [keysNodup, List.map_cons, List.nodup_cons] at h
    by_cases hk : k2 = k
    · subst hk
      simpa [setEntry, keysNodup] using h
    · simp only [setEntry, if_neg hk, keysNodup, List.map_cons, List.nodup_cons]
      refine ⟨?_, ih h.2⟩
      intro hmem
      rcases mem_keys_setEntry k e k2 rest hmem with h2 | h2
      · exact hk h2
      · exact h.1 h2

/-- Looking up the overwritten key finds the inserted entry. -/
theorem lookupEntry_setEntry (k : String) (e : ConnEntry) :
    ∀ l : List (String × ConnEntry), lookupEntry k (setEntry k e l) = some e := by
  intro l
  induction l with
  | nil => simp [setEntry, lookupEntry]
  | cons kv rest ih =>
    obtain ⟨k2, e2⟩ := kv
    by_cases hk : k2 = k
    · subst hk
      simp [setEntry, lookupEntry]
    · simp [setEntry, lookupEntry, hk, ih]

/-- C7: with an entry registered under the connection key, a connect with
the same password returns the existing connection and leaves the registry
untouched, a connect with a different password closes the old handle and
registers a freshly connected one under the same key, and the registry
keys stay pairwise distinct — at most one entry per key. -/
theorem C7_registry_reuse_replace (st : ConnState) (c : MsConfig) (e : ConnEntry)
    (hl : lookupEntry (connectionKey c) st.connections = some e) :
    (c.password = e.password → connect st c true = (st, .ok e.connId))
    ∧ (c.password ≠ e.password →
        connect st c true =
          ({ connections :=
               setEntry (connectionKey c) ⟨c.password, st.nextId⟩ st.connections,
             nextId := st.nextId + 1,
             closed := st.closed ++ [e.connId] }, .ok st.nextId)
        ∧ e.connId ∈ (connect st c true).1.closed
        ∧ lookupEntry (connectionKey c) (connect st c true).1.connections
            = some ⟨c.password, st.nextId⟩)
    ∧ (∀ (st2 : ConnState) (c2 : MsConfig) (ok : Bool), keysNodup st2.connections →
        keysNodup (connect st2 c2 ok).1.connections) := by
  refine ⟨?_, ?_, ?_⟩
  · intro hp
    simp [connect, hl, hp]
  · intro hp
    have hc : connect st c true =
        ({ connections :=
             setEntry (connectionKey c) ⟨c.password, st.nextId⟩ st.connections,
           nextId := st.nextId + 1,
           closed := st.closed ++ [e.connId] }, .ok st.nextId) := by
      simp [connect, hl, hp, connectNew]
    refine ⟨hc, ?_, ?_⟩
    · rw [hc]
      simp
    · rw [hc]
      exact lookupEntry_setEntry _ _ _
  · intro st2 c2 ok hnd2
    unfold connect
    cases hl2 : lookupEntry (connectionKey c2) st2.connections with
    | none =>
      cases ok <;> simp [hl2, connectNew, hnd2, keysNodup_setEntry _ _ _ hnd2]
    | some e2 =>
      by_cases hp2 : c2.password = e2.password
      · simp [hl2, hp2, hnd2]
      · cases ok <;> simp [hl2, hp2, connectNew, hnd2, keysNodup_setEntry _ _ _ hnd2]

/-- Closed instance of C7: a same-password reconnect reuses connection 0
without touching the registry; a changed password closes it and registers
connection 1. -/
theorem C7_witness :
    connect ⟨[("h1433dbu", ⟨"pw", 0⟩)], 1, []⟩ ⟨"h", "1433", "db", "u", "pw"⟩ true
      = (⟨[("h1433dbu", ⟨"pw", 0⟩)], 1, []⟩, .ok 0)
    ∧ connect ⟨[("h1433dbu", ⟨"pw", 0⟩)], 1, []⟩ ⟨"h", "1433", "db", "u", "pw2"⟩ true
      = (⟨[("h1433dbu", ⟨"pw2", 1⟩)], 2, [0]⟩, .ok 1) := by
  have h1 := C7_registry_reuse_replace ⟨[("h1433dbu", ⟨"pw", 0⟩)], 1, []⟩
    ⟨"h", "1433", "db", "u", "pw"⟩ ⟨"pw", 0⟩ (by decide)
  have h2 := C7_registry_reuse_replace ⟨[("h1433dbu", ⟨"pw", 0⟩)], 1, []⟩
    ⟨"h", "1433", "db", "u", "pw2"⟩ ⟨"pw", 0⟩ (by decide)
  exact ⟨h1.1 rfl, by simpa [setEntry] using (h2.2.1 (by decide)).1⟩

/-- C1 fails as stated: the statement consisting of the token `$1`
written twice contains one distinct positional token, and the
one-element parameter array covers it, yet binding fails — the assert
counts token occurrences, not distinct tokens. -/
theorem C1_counterexample :
    countDistinct (scanTokens ['$', '1', ' ', '$', '1'])
        ≤ ([JsValue.number ['5']] : List JsValue).length
    ∧ exceptOk (convertParams ['$', '1', ' ', '$', '1'] [JsValue.number ['5']])
        = false := by
  decide

/-- C1 amended: binding succeeds exactly when the number of positional
token occurrences (repeated tokens counted once per occurrence) does not
exceed the number of supplied parameters, and a statement with no
positional token binds nothing whatever the array holds. -/
theorem C1_amended_arity (stmt : List Char) (ps : List JsValue) :
    (exceptOk (convertParams stmt ps) = true ↔ (scanTokens stmt).length ≤ ps.length)
    ∧ (scanTokens stmt = [] → convertParams stmt ps = .ok (stmt, [])) := by
  constructor
  · by_cases h : (scanTokens stmt).length ≤ ps.length
    · simp [convertParams, h, exceptOk]
    · simp [convertParams, h, exceptOk]
  · intro h
    simp [convertParams, h]

/-- Closed instance of the amended C1: one token with one parameter
binds; one token with no parameter fails; a token-free statement with a
non-empty array binds nothing. -/
theorem C1_witness :
    exceptOk (convertParams ['$', '1'] [JsValue.number ['3']]) = true
    ∧ exceptOk (convertParams ['$', '1'] []) = false
    ∧ convertParams ['a', 'b'] [JsValue.number ['3']] = .ok (['a', 'b'], []) :=
  ⟨(C1_amended_arity ['$', '1'] [JsValue.number ['3']]).1.mpr (by decide),
   by
     have h := (C1_amended_arity ['$', '1'] []).1
     revert h
     decide,
   (C1_amended_arity ['a', 'b'] [JsValue.number ['3']]).2 (by decide)⟩

/-- C3: the type inferencer resolves descriptors per the decision table —
`integer` to the integer type, `number` to an exact decimal with precision
`maxLength` and scale `decimals`, `date` to the date-only type, `datetime`
with timezone `ignore` to the naive high-precision datetime, `datetime`
otherwise to the timezone-aware datetime, `string` with a (nonzero)
`maxLength` to a bounded string, any other declared type name to the
default unbounded string; and with no descriptor at all a `Date`-instance
value infers the naive high-precision datetime. -/
theorem C3_type_decision_table :
    (∀ (v val : JsValue) (ml dec : Option Nat) (tz : Option String),
        getType v (.object val (some "integer") ml dec tz) = .int)
    ∧ (∀ (v val : JsValue) (ml dec : Option Nat) (tz : Option String),
        getType v (.object val (some "number") ml dec tz) = .decimal ml dec)
    ∧ (∀ (v val : JsValue) (ml dec : Option Nat) (tz : Option String),
        getType v (.object val (some "date") ml dec tz) = .sqlDate)
    ∧ (∀ (v val : JsValue) (ml dec : Option Nat),
        getType v (.object val (some "datetime") ml dec (some "ignore")) = .dateTime2)
    ∧ (∀ (v val : JsValue) (ml dec : Option Nat) (tz : Option String),
        tz ≠ some "ignore" →
        getType v (.object val (some "datetime") ml dec tz) = .dateTimeOffset)
    ∧ (∀ (v val : JsValue) (dec : Option Nat) (tz : Option String) (n : Nat),
        n ≠ 0 →
        getType v (.object val (some "string") (some n) dec tz) = .nvarchar n)
    ∧ (∀ (v val : JsValue) (dec : Option Nat) (tz : Option String),
        getType v (.object val (some "string") none dec tz) = .nvarcharDefault)
    ∧ (∀ (v val : JsValue) (ml dec : Option Nat) (tz : Option String) (t : String),
        t ≠ "" → t ∉ (["integer", "number", "date", "datetime", "string"] : List String) →
        getType v (.object val (some t) ml dec tz) = .nvarcharDefault)
    ∧ (∀ iso : List Char, getType (.date iso) .undefined = .dateTime2) := by
  refine ⟨?_, ?_, ?_, ?_, ?_, ?_, ?_, ?_, ?_⟩
  · intro v val ml dec tz
    simp [getType]
  · intro v val ml dec tz
    simp [getType]
  · intro v val ml dec tz
    simp [getType]
  · intro v val ml dec
    simp [getType]
  · intro v val ml dec tz htz
    simp [getType, htz]
  · intro v val dec tz n hn
    simp [getType, mlTruthy, hn]
  · intro v val dec tz
    simp [getType, mlTruthy]
  · intro v val ml dec tz t h1 h2
    simp only [List.mem_cons, List.not_mem_nil, or_false, not_or] at h2
    obtain ⟨n1, n2, n3, n4, n5⟩ := h2
    simp [getType, h1, n1, n2, n3, n4, n5]
  · intro iso
    simp [getType, inferFromValue]

/-- Closed instance of C3: one concrete evaluation per row of the
decision table. -/
theorem C3_witness :
    getType .null (.object (.number ['3']) (some "integer") none none none) = .int
    ∧ getType .null (.object (.number ['3']) (some "number") (some 5) (some 2) none)
        = .decimal (some 5) (some 2)
    ∧ getType .null (.object .null (some "date") none none none) = .sqlDate
    ∧ getType .null (.object .null (some "datetime") none none (some "ignore"))
        = .dateTime2
    ∧ getType .null (.object .null (some "datetime") none none none) = .dateTimeOffset
    ∧ getType .null (.object (.str ['a']) (some "string") (some 10) none none)
        = .nvarchar 10
    ∧ getType .null (.object (.str ['a']) (some "string") none none none)
        = .nvarcharDefault
    ∧ getType .null (.object .null (some "boolean") none none none) = .nvarcharDefault
    ∧ getType (.date ['Z']) .undefined = .dateTime2 :=
  ⟨C3_type_decision_table.1 _ _ _ _ _,
   C3_type_decision_table.2.1 _ _ _ _ _,
   C3_type_decision_table.2.2.1 _ _ _ _ _,
   C3_type_decision_table.2.2.2.1 _ _ _ _,
   C3_type_decision_table.2.2.2.2.1 _ _ _ _ _ (by decide),
   C3_type_decision_table.2.2.2.2.2.1 _ _ _ _ _ (by decide),
   C3_type_decision_table.2.2.2.2.2.2.1 _ _ _ _,
   C3_type_decision_table.2.2.2.2.2.2.2.1 _ _ _ _ _ _ (by decide) (by decide),
   C3_type_decision_table.2.2.2.2.2.2.2.2 _⟩

/-- C4 fails as stated: the number `0` supplied as the value of a
descriptor declaring a `date` type is not bound as the number `0` — the
binding loop coerces it to a `Date` instance. -/
theorem C4_counterexample :
    (bindParam (.object (.number ['0']) (some "date") none none none)).1
        ≠ JsValue.number ['0']
    ∧ (bindParam (.object (.number ['0']) (some "date") none none none)).1
        = JsValue.date ['0'] := by
  decide

/-- C4 amended: an absent or undefined value — raw or as a descriptor's
value field — always binds SQL NULL; a falsy-but-present `0` or empty
string binds the value itself, except that a descriptor declaring a
`date`/`datetime` type coerces any present non-`Date` value (including
`0` and the empty string) to a `Date` instance. -/
theorem C4_amended_null_falsy :
    (bindParam JsValue.undefined).1 = JsValue.null
    ∧ (∀ (t : Option String) (ml dec : Option Nat) (tz : Option String),
        (bindParam (.object JsValue.undefined t ml dec tz)).1 = JsValue.null)
    ∧ (bindParam (.number ['0'])).1 = JsValue.number ['0']
    ∧ (bindParam (.str [])).1 = JsValue.str []
    ∧ (∀ (t : Option String) (ml dec : Option Nat) (tz : Option String),
        t ≠ some "date" → t ≠ some "datetime" →
        (bindParam (.object (.number ['0']) t ml dec tz)).1 = JsValue.number ['0']
        ∧ (bindParam (.object (.str []) t ml dec tz)).1 = JsValue.str [])
    ∧ (∀ (v : JsValue) (t : Option String) (ml dec : Option Nat) (tz : Option String),
        v ≠ JsValue.undefined → v ≠ JsValue.null → isDateValue v = false →
        (t = some "date" ∨ t = some "datetime") →
        (bindParam (.object v t ml dec tz)).1 = jsNewDate v) := by
  refine ⟨rfl, ?_, rfl, rfl, ?_, ?_⟩
  · intro t ml dec tz
    simp [bindParam]
  · intro t ml dec tz h1 h2
    constructor
    · simp [bindParam, h1, h2]
    · simp [bindParam, h1, h2]
  · intro v t ml dec tz h1 h2 h3 h4
    simp [bindParam, h1, h2, h3, h4]

/-- Closed instance of the amended C4: an undefined descriptor value
binds NULL; raw `0` and `""` bind themselves; `0` under a plain `number`
descriptor binds `0`; the empty string under a `datetime` descriptor is
coerced to a `Date` instance. -/
theorem C4_witness :
    (bindParam (.object JsValue.undefined (some "string") none none none)).1 = JsValue.null
    ∧ (bindParam (.number ['0'])).1 = JsValue.number ['0']
    ∧ (bindParam (.object (.number ['0']) (some "number") (some 3) (some 0) none)).1
        = JsValue.number ['0']
    ∧ (bindParam (.object (.str []) (some "datetime") none none none)).1
        = jsNewDate (JsValue.str []) :=
  ⟨C4_amended_null_falsy.2.1 (some "string") none none none,
   C4_amended_null_falsy.2.2.1,
   (C4_amended_null_falsy.2.2.2.2.1 (some "number") (some 3) (some 0) none
     (by decide) (by decide)).1,
   C4_amended_null_falsy.2.2.2.2.2 (.str []) (some "datetime") none none none
     (by decide) (by decide) (by decide) (Or.inr rfl)⟩

/-- A decimal digit is none of the characters the scale scanner treats
specially. -/
theorem digit_not_special (c : Char) (h : c.isDigit = true) :
    c ≠ '.' ∧ c ≠ 'e' ∧ c ≠ 'E' := by
  refine ⟨?_, ?_, ?_⟩ <;> (intro hc; subst hc; exact absurd h (by decide))

/-- The scale scanner skips a character that can start no match. -/
theorem scanDp_cons_skip (c : Char) (rest : List Char)
    (h1 : c ≠ '.') (h2 : c ≠ 'e') (h3 : c ≠ 'E') :
    scanDp (c :: rest) = scanDp rest := by
  simp [scanDp, matchAt, matchExpTail, h1, h2, h3]

/-- The scale scanner skips any prefix of digits. -/
theorem scanDp_digits_prefix (l rest : List Char) (h : l.all Char.isDigit = true) :
    scanDp (l ++ rest) = scanDp rest := by
  induction l with
  | nil => simp
  | cons c cs ih =>
    simp only [List.all_cons, Bool.and_eq_true] at h
    obtain ⟨h1, h2, h3⟩ := digit_not_special c h.1
    rw [List.cons_append, scanDp_cons_skip c (cs ++ rest) h1 h2 h3, ih h.2]

/-- The scale scanner skips the sign and the integer digits of a number
rendering. -/
theorem scanDp_sign_digits (neg : Bool) (I X : List Char)
    (hI : I.all Char.isDigit = true) :
    scanDp ((if neg then ['-'] else []) ++ (I ++ X)) = scanDp X := by
  cases neg with
  | false => simpa using scanDp_digits_prefix I X hI
  | true =>
    have hskip := scanDp_cons_skip '-' (I ++ X) (by decide) (by decide) (by decide)
    simpa [hskip] using scanDp_digits_prefix I X hI

/-- A list whose digit-taking prefix is empty is untouched by digit
dropping. -/
theorem dropWhile_digits_self (r : List Char) (hr : r.takeWhile Char.isDigit = []) :
    r.dropWhile Char.isDigit = r := by
  cases r with
  | nil => rfl
  | cons c t =>
    by_cases hc : Char.isDigit c
    · simp [List.takeWhile_cons, hc] at hr
    · simp [List.dropWhile_cons, hc]

/-- Splitting a digit run followed by a non-digit remainder: the greedy
digit take yields exactly the run and the drop yields the remainder. -/
theorem takeWhile_digits_append (F r : List Char) (hF : F.all Char.isDigit = true)
    (hr : r.takeWhile Char.isDigit = []) :
    (F ++ r).takeWhile Char.isDigit = F ∧ (F ++ r).dropWhile Char.isDigit = r := by
  induction F with
  | nil => exact ⟨by simpa using hr, by simpa using dropWhile_digits_self r hr⟩
  | cons c cs ih =>
    simp only [List.all_cons, Bool.and_eq_true] at hF
    obtain ⟨ih1, ih2⟩ := ih hF.2
    constructor
    · simp [List.cons_append, List.takeWhile_cons, hF.1, ih1]
    · simp [List.cons_append, List.dropWhile_cons, hF.1, ih2]

/-- The exponent-tail pattern matches a signed digit run reaching the end
of the string; its value is the signed exponent. -/
theorem matchExp_signed (eneg : Bool) (D : List Char)
    (hD1 : D ≠ []) (hD2 : D.all Char.isDigit = true) :
    matchExpTail ('e' :: (if eneg then '-' else '+') :: D) = some (sciExp eneg D) := by
  cases eneg with
  | false => simp [matchExpTail, sciExp, hD1, hD2]
  | true => simp [matchExpTail, sciExp, hD1, hD2]

/-- At a dot followed by a digit run ending the string, the scanner
reports the run length and a zero exponent. -/
theorem scanDp_dot_end (F : List Char) (hne : F ≠ []) (hF : F.all Char.isDigit = true) :
    scanDp ('.' :: F) = (F.length, 0) := by
  have h := takeWhile_digits_append F [] hF rfl
  have h1 : F.takeWhile Char.isDigit = F := by simpa using h.1
  have h2 : F.dropWhile Char.isDigit = [] := by simpa using h.2
  simp [scanDp, matchAt, h1, h2, hne]

/-- At a dot followed by a digit run and a signed exponent tail, the
scanner reports the run length and the exponent. -/
theorem scanDp_dot_exp (F : List Char) (eneg : Bool) (D : List Char)
    (hne : F ≠ []) (hF : F.all Char.isDigit = true)
    (hD1 : D ≠ []) (hD2 : D.all Char.isDigit = true) :
    scanDp ('.' :: (F ++ 'e' :: (if eneg then '-' else '+') :: D))
      = (F.length, sciExp eneg D) := by
  have hr : ('e' :: (if eneg then '-' else '+') :: D).takeWhile Char.isDigit = [] := by
    have he : Char.isDigit 'e' = false := by decide
    simp [List.takeWhile_cons, he]
  have h := takeWhile_digits_append F _ hF hr
  have hexp := matchExp_signed eneg D hD1 hD2
  simp [scanDp, matchAt, h.1, h.2, hne, hexp]

/-- At a bare signed exponent tail, the scanner reports a zero fraction
and the exponent. -/
theorem scanDp_exp_head (eneg : Bool) (D : List Char)
    (hD1 : D ≠ []) (hD2 : D.all Char.isDigit = true) :
    scanDp ('e' :: (if eneg then '-' else '+') :: D) = (0, sciExp eneg D) := by
  have hexp := matchExp_signed eneg D hD1 hD2
  have hne : ('e' : Char) ≠ '.' := by decide
  simp [scanDp, matchAt, hne, hexp]

/-- The scale the source computes for a plain decimal rendering is the
number of fraction digits. -/
theorem dp_renderPlain (neg : Bool) (I F : List Char)
    (hI : I.all Char.isDigit = true) (hF : F.all Char.isDigit = true) :
    decimalPlaces (renderPlain neg I F) = F.length := by
  by_cases hFe : F = []
  · subst hFe
    have hrp : renderPlain neg I [] = (if neg then ['-'] else []) ++ (I ++ []) := by
      simp [renderPlain, optFrac]
    rw [hrp]
    simp only [decimalPlaces, scanDp_sign_digits neg I [] hI]
    decide
  · have hrp : renderPlain neg I F
        = (if neg then ['-'] else []) ++ (I ++ ('.' :: F)) := by
      simp [renderPlain, optFrac, hFe, List.append_assoc]
    rw [hrp]
    simp only [decimalPlaces, scanDp_sign_digits neg I ('.' :: F) hI,
      scanDp_dot_end F hFe hF]
    simp

/-- The scale the source computes for a scientific rendering is the
number of fraction digits reduced by the exponent and floored at zero. -/
theorem dp_renderSci (neg eneg : Bool) (I F D : List Char)
    (hI : I.all Char.isDigit = true) (hF : F.all Char.isDigit = true)
    (hD1 : D ≠ []) (hD2 : D.all Char.isDigit = true) :
    decimalPlaces (renderSci neg I F eneg D)
      = Int.toNat (max 0 ((F.length : Int) - sciExp eneg D)) := by
  by_cases hFe : F = []
  · subst hFe
    have hrs : renderSci neg I [] eneg D
        = (if neg then ['-'] else [])
          ++ (I ++ ('e' :: (if eneg then '-' else '+') :: D)) := by
      simp [renderSci, renderPlain, optFrac, List.append_assoc]
    rw [hrs]
    simp only [decimalPlaces, scanDp_sign_digits neg I _ hI,
      scanDp_exp_head eneg D hD1 hD2]
    simp
  · have hrs : renderSci neg I F eneg D
        = (if neg then ['-'] else [])
          ++ (I ++ ('.' :: (F ++ 'e' :: (if eneg then '-' else '+') :: D))) := by
      simp [renderSci, renderPlain, optFrac, hFe, List.append_assoc]
    rw [hrs]
    simp only [decimalPlaces, scanDp_sign_digits neg I _ hI,
      scanDp_dot_exp F eneg D hFe hF hD1 hD2]

/-- C2 fails as stated: for the value `0.99`, whose string form is
`0.99`, the inferred decimal has scale 2 as claimed but precision 4 —
the character count of the string form — while the digit count of the
string form is 3. -/
theorem C2_counterexample :
    getType (JsValue.number ['0', '.', '9', '9']) JsValue.undefined
      = SqlType.decimal (some 4) (some 2)
    ∧ digitCount ['0', '.', '9', '9'] = 3
    ∧ (4 : Nat) ≠ 3 := by
  decide

/-- C2 amended: for a numeric parameter without descriptor the inferred
type is an exact decimal whose precision is the character count (string
length) of the value's string form and whose scale is the count of digits
after the decimal point, reduced by the exponent for a scientific
rendering and floored at zero. -/
theorem C2_amended_precision_scale (neg eneg : Bool) (I F D : List Char)
    (hI : I.all Char.isDigit = true) (hF : F.all Char.isDigit = true)
    (hD1 : D ≠ []) (hD2 : D.all Char.isDigit = true) :
    getType (JsValue.number (renderPlain neg I F)) JsValue.undefined
      = SqlType.decimal (some (renderPlain neg I F).length) (some F.length)
    ∧ getType (JsValue.number (renderSci neg I F eneg D)) JsValue.undefined
      = SqlType.decimal (some (renderSci neg I F eneg D).length)
          (some (Int.toNat (max 0 ((F.length : Int) - sciExp eneg D)))) := by
  constructor
  · have h := dp_renderPlain neg I F hI hF
    simp [getType, inferFromValue, h]
  · have h := dp_renderSci neg eneg I F D hI hF hD1 hD2
    simp [getType, inferFromValue, h]

/-- Closed instance of the amended C2: the rendering `0.99` infers
`Decimal(4, 2)` and the rendering `1e+21` infers `Decimal(5, 0)`. -/
theorem C2_witness :
    getType (JsValue.number (renderPlain false ['0'] ['9', '9'])) JsValue.undefined
      = SqlType.decimal (some 4) (some 2)
    ∧ getType (JsValue.number (renderSci false ['1'] [] false ['2', '1'])) JsValue.undefined
      = SqlType.decimal (some 5) (some 0) :=
  ⟨(C2_amended_precision_scale false false ['0'] ['9', '9'] ['1']
      (by decide) (by decide) (by decide) (by decide)).1,
   (C2_amended_precision_scale false false ['1'] [] ['2', '1']
      (by decide) (by decide) (by decide) (by decide)).2⟩

end MssqlCr
